import Mathlib

/-!
Verification of the snapshot-diffing engine and subscription store of the
Nuernberg cinema notification bot.  The definitions below are a shallow
embedding of the Python source (`src/models.py`, `src/storage.py`,
`src/subscribers.py`, `src/notifier.py`): Python dictionaries keyed by
title or chat id become association lists with last-write-wins lookup,
Python sets become membership-compared lists, and fallible operations
return `Except`/`Option` values.
-/

set_option autoImplicit false

namespace KinoBot

/-- `Showtime` from `src/models.py`: a single film showtime. -/
structure Showtime where
  date : String
  time : String
  room : String
  language : Option String := none
deriving DecidableEq, Repr

/-- `Film` from `src/models.py`: a film with all its information. -/
structure Film where
  title : String
  genres : List String := []
  fsk_rating : Option String := none
  duration : Option Int := none
  description : Option String := none
  poster_url : Option String := none
  showtimes : List Showtime := []
  film_id : Option String := none
deriving DecidableEq, Repr

/-- `ProgramSnapshot` from `src/models.py`. -/
structure ProgramSnapshot where
  timestamp : String
  films : List Film := []
deriving DecidableEq, Repr

/-- The `(st.date, st.time, st.room, st.language)` tuple that
`Storage._film_changed` builds for each showtime. -/
def showtimeKey (st : Showtime) : String × String × String × Option String :=
  (st.date, st.time, st.room, st.language)

/-- Python `set` equality of the two showtime-key collections in
`Storage._film_changed`: each key occurring in one list occurs in the other. -/
def showtimeSetEq (a b : List Showtime) : Bool :=
  let ka := a.map showtimeKey
  let kb := b.map showtimeKey
  ka.all (fun k => decide (k ∈ kb)) && kb.all (fun k => decide (k ∈ ka))

/-- `Storage._film_changed`: true iff the description differs or the set of
showtime keys differs. -/
def film_changed (old_film new_film : Film) : Bool :=
  decide (old_film.description ≠ new_film.description) ||
    !(showtimeSetEq old_film.showtimes new_film.showtimes)

/-- Lookup in the Python dict `{film.title: film for film in films}`:
the value stored for a title is the LAST film in the list with that title
(dict comprehension overwrites earlier entries). -/
def dictGet (films : List Film) (t : String) : Option Film :=
  films.reverse.find? (fun f => decide (f.title = t))

/-- `Storage.compare_snapshots`: diff an optional previous snapshot against
the current film listing, returning `(new, removed, updated)`. -/
def compare_snapshots (old_snapshot : Option ProgramSnapshot)
    (new_films : List Film) : List Film × List Film × List Film :=
  match old_snapshot with
  | none => (new_films, [], [])
  | some snap =>
    let oldKeys := (snap.films.map Film.title).dedup
    let newKeys := (new_films.map Film.title).dedup
    let new := (newKeys.filter (fun t => decide (t ∉ oldKeys))).filterMap
      (dictGet new_films)
    let removed := (oldKeys.filter (fun t => decide (t ∉ newKeys))).filterMap
      (dictGet snap.films)
    let updated := (oldKeys.filter (fun t => decide (t ∈ newKeys))).filterMap
      (fun t =>
        match dictGet snap.films t, dictGet new_films t with
        | some old_film, some new_film =>
          if film_changed old_film new_film then some new_film else none
        | _, _ => none)
    (new, removed, updated)

/-- The per-user value stored in `SubscriberManager._subscribers`
(`src/subscribers.py`): a source list and a language code. -/
structure SubRecord where
  sources : List String
  language : String
deriving DecidableEq, Repr

/-- The `SubscriberManager._subscribers` dict, embedded as an association
list from chat id to record (insertion order preserved, new keys appended). -/
abbrev SubState := List (Int × SubRecord)

/-- Python `chat_id in self._subscribers` / `self._subscribers[chat_id]`. -/
def subLookup (s : SubState) (c : Int) : Option SubRecord :=
  (s.find? (fun p => decide (p.1 = c))).map Prod.snd

/-- Python `self._subscribers[chat_id] = r`: overwrites the value if the key
exists, otherwise appends the new key at the end (dict insertion order). -/
def setRecord (s : SubState) (c : Int) (r : SubRecord) : SubState :=
  if s.any (fun p => decide (p.1 = c)) then
    s.map (fun p => if p.1 = c then (c, r) else p)
  else s ++ [(c, r)]

/-- Python `del self._subscribers[chat_id]`. -/
def delRecord (s : SubState) (c : Int) : SubState :=
  s.filter (fun p => decide (p.1 ≠ c))

/-- `SubscriberManager.add_subscription`: create the record with empty
sources if absent, then append the source unless already present.  Returns
the Python return value paired with the resulting state. -/
def add_subscription (s : SubState) (chat_id : Int) (source_id : String) :
    Bool × SubState :=
  let s1 := if (subLookup s chat_id).isNone then
    setRecord s chat_id ⟨[], "en"⟩ else s
  match subLookup s1 chat_id with
  | none => (false, s1)
  | some r =>
    if source_id ∈ r.sources then (false, s1)
    else (true, setRecord s1 chat_id ⟨r.sources ++ [source_id], r.language⟩)

/-- `SubscriberManager.remove_subscription`: remove the source (Python
`list.remove`, first occurrence); if the source list becomes empty the whole
record is deleted. -/
def remove_subscription (s : SubState) (chat_id : Int) (source_id : String) :
    Bool × SubState :=
  match subLookup s chat_id with
  | none => (false, s)
  | some r =>
    if source_id ∈ r.sources then
      let newSources := r.sources.erase source_id
      if newSources.isEmpty then (true, delRecord s chat_id)
      else (true, setRecord s chat_id ⟨newSources, r.language⟩)
    else (false, s)

/-- Legacy `SubscriberManager.add_subscriber`: subscribe to "meisengeige". -/
def add_subscriber (s : SubState) (chat_id : Int) : Bool × SubState :=
  add_subscription s chat_id "meisengeige"

/-- Legacy `SubscriberManager.remove_subscriber`: delete the whole record. -/
def remove_subscriber (s : SubState) (chat_id : Int) : Bool × SubState :=
  if (subLookup s chat_id).isNone then (false, s)
  else (true, delRecord s chat_id)

/-- `SubscriberManager.get_user_sources`. -/
def get_user_sources (s : SubState) (chat_id : Int) : List String :=
  match subLookup s chat_id with
  | none => []
  | some r => r.sources

/-- `SubscriberManager.is_subscribed` with its optional source argument. -/
def is_subscribed (s : SubState) (chat_id : Int) (source_id : Option String) :
    Bool :=
  match subLookup s chat_id with
  | none => false
  | some r =>
    match source_id with
    | none => decide (r.sources.length > 0)
    | some sid => decide (sid ∈ r.sources)

/-- One mutating operation on the subscription store. -/
inductive SubOp where
  | addSub (chat_id : Int) (source_id : String)
  | removeSub (chat_id : Int) (source_id : String)
  | addLegacy (chat_id : Int)
  | removeLegacy (chat_id : Int)
deriving DecidableEq, Repr

/-- State reached after one operation (return value discarded). -/
def applyOp (s : SubState) : SubOp → SubState
  | .addSub c src => (add_subscription s c src).2
  | .removeSub c src => (remove_subscription s c src).2
  | .addLegacy c => (add_subscriber s c).2
  | .removeLegacy c => (remove_subscriber s c).2

/-- State reached after a finite sequence of operations. -/
def applyOps (s : SubState) (ops : List SubOp) : SubState :=
  ops.foldl applyOp s

/-- No persisted record has an empty source set. -/
def noEmptyRecords (s : SubState) : Prop :=
  ∀ p ∈ s, p.2.sources ≠ []

/-- The shapes of the persisted `subscribers` payload that
`SubscriberManager._migrate_old_format` distinguishes: the old flat id list
(`{"subscribers": [123, 456]}`) and the new per-source dict. -/
inductive SubPayload where
  | oldFormat (ids : List Int)
  | newFormat (entries : List (Int × SubRecord))
deriving DecidableEq, Repr

/-- `SubscriberManager._migrate_old_format`: an old flat id list becomes a
dict mapping each listed id to `sources = ["meisengeige"], language = "en"`
(built in list order, duplicate ids overwrite); new-format data passes
through unchanged. -/
def migrate_old_format : SubPayload → SubState
  | .oldFormat ids =>
    ids.foldl (fun m c => setRecord m c ⟨["meisengeige"], "en"⟩) []
  | .newFormat entries => entries

/-- JSON values as handled by `json.load`/`json.dump`. -/
inductive JValue where
  | null
  | str (s : String)
  | num (n : Int)
  | arr (xs : List JValue)
  | obj (kvs : List (String × JValue))

/-- The Python exception classes relevant to the load paths. -/
inductive PyErr where
  | keyError
  | typeError
  | attributeError
deriving DecidableEq, Repr

/-- Python `dict.get(k)` on a JSON object: `none` when the key is missing. -/
def jget (kvs : List (String × JValue)) (k : String) : Option JValue :=
  (kvs.reverse.find? (fun p => decide (p.1 = k))).map Prod.snd

/-- Python `data[k]` where the dataclass field is a `str`: missing key is a
`KeyError`; a value of the wrong declared type is modelled as a type error. -/
def reqStr (kvs : List (String × JValue)) (k : String) :
    Except PyErr String :=
  match jget kvs k with
  | none => .error .keyError
  | some (.str s) => .ok s
  | some _ => .error .typeError

/-- Python `data.get(k)` for an `Optional[str]` field: missing key and a
stored JSON null both give `None`. -/
def optStr (kvs : List (String × JValue)) (k : String) :
    Except PyErr (Option String) :=
  match jget kvs k with
  | none => .ok none
  | some .null => .ok none
  | some (.str s) => .ok (some s)
  | some _ => .error .typeError

/-- Python `data.get(k)` for an `Optional[int]` field. -/
def optInt (kvs : List (String × JValue)) (k : String) :
    Except PyErr (Option Int) :=
  match jget kvs k with
  | none => .ok none
  | some .null => .ok none
  | some (.num n) => .ok (some n)
  | some _ => .error .typeError

/-- Serialization of an optional string field (`None` becomes JSON null). -/
def optStrToJ : Option String → JValue
  | none => .null
  | some s => .str s

/-- Serialization of an optional int field. -/
def optIntToJ : Option Int → JValue
  | none => .null
  | some n => .num n

/-- The showtime dict written inside `Film.to_dict`. -/
def showtimeToDict (st : Showtime) : JValue :=
  .obj [("date", .str st.date), ("time", .str st.time),
    ("room", .str st.room), ("language", optStrToJ st.language)]

/-- The showtime reconstruction inside `Film.from_dict`:
`st["date"]`, `st["time"]`, `st["room"]` are required, `st.get("language")`
is optional; a non-dict element is a type error. -/
def showtimeFromDict : JValue → Except PyErr Showtime
  | .obj kvs => do
    let date ← reqStr kvs "date"
    let time ← reqStr kvs "time"
    let room ← reqStr kvs "room"
    let language ← optStr kvs "language"
    .ok { date := date, time := time, room := room, language := language }
  | _ => .error .typeError

/-- The showtime list comprehension in `Film.from_dict`: errors propagate
from the first offending element. -/
def decodeShowtimes : List JValue → Except PyErr (List Showtime)
  | [] => .ok []
  | v :: tl => do
    let st ← showtimeFromDict v
    let rest ← decodeShowtimes tl
    .ok (st :: rest)

/-- Decoding of the genre list (a list of strings). -/
def decodeStrings : List JValue → Except PyErr (List String)
  | [] => .ok []
  | .str s :: tl => do
    let rest ← decodeStrings tl
    .ok (s :: rest)
  | _ :: _ => .error .typeError

/-- `Film.to_dict` from `src/models.py`. -/
def Film.to_dict (f : Film) : JValue :=
  .obj [("title", .str f.title),
    ("genres", .arr (f.genres.map JValue.str)),
    ("fsk_rating", optStrToJ f.fsk_rating),
    ("duration", optIntToJ f.duration),
    ("description", optStrToJ f.description),
    ("poster_url", optStrToJ f.poster_url),
    ("film_id", optStrToJ f.film_id),
    ("showtimes", .arr (f.showtimes.map showtimeToDict))]

/-- `Film.from_dict` from `src/models.py`: the showtime comprehension runs
first (`data.get("showtimes", [])`), then the required `data["title"]` and
the optional fields; iterating a non-list showtimes value is a type error,
and calling `.get` on a non-dict is an attribute error. -/
def Film.from_dict : JValue → Except PyErr Film
  | .obj kvs => do
    let showtimes ← match (jget kvs "showtimes").getD (.arr []) with
      | .arr xs => decodeShowtimes xs
      | _ => .error .typeError
    let title ← reqStr kvs "title"
    let genres ← match (jget kvs "genres").getD (.arr []) with
      | .arr xs => decodeStrings xs
      | _ => .error .typeError
    let fsk_rating ← optStr kvs "fsk_rating"
    let duration ← optInt kvs "duration"
    let description ← optStr kvs "description"
    let poster_url ← optStr kvs "poster_url"
    let film_id ← optStr kvs "film_id"
    .ok { title := title, genres := genres, fsk_rating := fsk_rating,
          duration := duration, description := description,
          poster_url := poster_url, showtimes := showtimes,
          film_id := film_id }
  | _ => .error .attributeError

/-- The film list comprehension in `ProgramSnapshot.from_dict`. -/
def decodeFilms : List JValue → Except PyErr (List Film)
  | [] => .ok []
  | v :: tl => do
    let f ← Film.from_dict v
    let rest ← decodeFilms tl
    .ok (f :: rest)

/-- `ProgramSnapshot.to_dict` from `src/models.py`. -/
def ProgramSnapshot.to_dict (s : ProgramSnapshot) : JValue :=
  .obj [("timestamp", .str s.timestamp),
    ("films", .arr (s.films.map Film.to_dict))]

/-- `ProgramSnapshot.from_dict` from `src/models.py`: films are decoded from
`data.get("films", [])` first, then the required `data["timestamp"]`. -/
def ProgramSnapshot.from_dict : JValue → Except PyErr ProgramSnapshot
  | .obj kvs => do
    let films ← match (jget kvs "films").getD (.arr []) with
      | .arr xs => decodeFilms xs
      | _ => .error .typeError
    let timestamp ← reqStr kvs "timestamp"
    .ok { timestamp := timestamp, films := films }
  | _ => .error .attributeError

/-- The possible states of the snapshot file on disk. -/
inductive Stored where
  | missing
  | invalidJson
  | json (v : JValue)

/-- `Storage.load_snapshot`: `None` when the file does not exist; the body
catches `json.JSONDecodeError` (a file that is not valid JSON) and
`KeyError`, returning `None`; any other exception propagates. -/
def load_snapshot : Stored → Except PyErr (Option ProgramSnapshot)
  | .missing => .ok none
  | .invalidJson => .ok none
  | .json v =>
    match ProgramSnapshot.from_dict v with
    | .ok s => .ok (some s)
    | .error .keyError => .ok none
    | .error e => .error e

/-- `Storage.save_snapshot`: writes `snapshot.to_dict()` as JSON. -/
def save_snapshot (timestamp : String) (films : List Film) : Stored :=
  .json (ProgramSnapshot.to_dict { timestamp := timestamp, films := films })

/-- Outcome of the per-recipient message sequence inside the `try` block of
`TelegramNotifier.send_update_notification`: either every send for that
recipient succeeds or a `TelegramError` is raised. -/
inductive SendResult where
  | delivered
  | telegramError
deriving DecidableEq, Repr

/-- The subscriber loop of `TelegramNotifier.send_update_notification`: a
`TelegramError` for one recipient is caught, counted in `error_count`, and
the loop continues with the next subscriber.  Returns
`(success_count, error_count, attempted)` where `attempted` lists every chat
id for which delivery was attempted, in order. -/
def notifyAll (send : Int → SendResult) (subscribers : List Int) :
    Nat × Nat × List Int :=
  subscribers.foldl
    (fun acc chat_id =>
      match send chat_id with
      | .delivered => (acc.1 + 1, acc.2.1, acc.2.2 ++ [chat_id])
      | .telegramError => (acc.1, acc.2.1 + 1, acc.2.2 ++ [chat_id]))
    (0, 0, [])

/-- `TelegramNotifier.send_update_notification`: returns early when the diff
is empty or there are no subscribers for the source, otherwise runs the
subscriber loop. -/
def send_update_notification (send : Int → SendResult)
    (subscribers : List Int)
    (new_films removed_films updated_films : List Film) :
    Nat × Nat × List Int :=
  if new_films.isEmpty && removed_films.isEmpty && updated_films.isEmpty then
    (0, 0, [])
  else if subscribers.isEmpty then (0, 0, [])
  else notifyAll send subscribers

/-- Sample send behaviour: delivery to chat 2 raises a TelegramError, other
chats succeed. -/
def sendSample : Int → SendResult :=
  fun c => if c = 2 then .telegramError else .delivered

/-- Sample showtime used to evaluate the theorems on concrete inputs. -/
def showtimeA : Showtime :=
  { date := "Mo. 15.12", time := "20:30", room := "Kino 1" }

/-- Sample film, previous version: description "a". -/
def filmXold : Film :=
  { title := "X", description := some "a", showtimes := [showtimeA] }

/-- Sample film, current version: same showtimes, description "b". -/
def filmXnew : Film :=
  { title := "X", description := some "b", showtimes := [showtimeA] }

/-- Sample previous snapshot holding only `filmXold`. -/
def snapX : ProgramSnapshot := { timestamp := "t0", films := [filmXold] }

/-- Sample film with a title absent from `snapX`. -/
def filmY : Film := { title := "Y", showtimes := [showtimeA] }

theorem dictGet_title {films : List Film} {t : String} {f : Film}
    (h : dictGet films t = some f) : f.title = t := by
  have := List.find?_some h
  simpa using this

theorem dictGet_mem {films : List Film} {t : String} {f : Film}
    (h : dictGet films t = some f) : f ∈ films := by
  have := List.mem_of_find?_eq_some h
  simpa using this

theorem dictGet_isSome_iff {films : List Film} {t : String} :
    (dictGet films t).isSome ↔ t ∈ films.map Film.title := by
  unfold dictGet
  rw [List.find?_isSome]
  constructor
  · rintro ⟨f, hf, hp⟩
    exact List.mem_map.mpr ⟨f, List.mem_reverse.mp hf, of_decide_eq_true hp⟩
  · rintro h
    obtain ⟨f, hf, ht⟩ := List.mem_map.mp h
    exact ⟨f, List.mem_reverse.mpr hf, decide_eq_true ht⟩

theorem mem_map_title_of_dictGet {films : List Film} {t : String} {f : Film}
    (h : dictGet films t = some f) : t ∈ films.map Film.title :=
  dictGet_isSome_iff.mp (by rw [h]; rfl)

theorem mem_compare_new_iff (snap : ProgramSnapshot) (new_films : List Film)
    (f : Film) :
    f ∈ (compare_snapshots (some snap) new_films).1 ↔
      dictGet new_films f.title = some f ∧
        f.title ∉ snap.films.map Film.title := by
  show f ∈ List.filterMap _ _ ↔ _
  rw [List.mem_filterMap]
  constructor
  · rintro ⟨t, ht, hget⟩
    rw [List.mem_filter] at ht
    obtain ⟨htnew, htold⟩ := ht
    have htitle := dictGet_title hget
    subst htitle
    exact ⟨hget, fun hmem => of_decide_eq_true htold (List.mem_dedup.mpr hmem)⟩
  · rintro ⟨hget, hnot⟩
    refine ⟨f.title, List.mem_filter.mpr
      ⟨?_, decide_eq_true fun hd => hnot (List.mem_dedup.mp hd)⟩, hget⟩
    exact List.mem_dedup.mpr (mem_map_title_of_dictGet hget)

theorem mem_compare_removed_iff (snap : ProgramSnapshot) (new_films : List Film)
    (f : Film) :
    f ∈ (compare_snapshots (some snap) new_films).2.1 ↔
      dictGet snap.films f.title = some f ∧
        f.title ∉ new_films.map Film.title := by
  show f ∈ List.filterMap _ _ ↔ _
  rw [List.mem_filterMap]
  constructor
  · rintro ⟨t, ht, hget⟩
    rw [List.mem_filter] at ht
    obtain ⟨htold, htnew⟩ := ht
    have htitle := dictGet_title hget
    subst htitle
    exact ⟨hget, fun hmem => of_decide_eq_true htnew (List.mem_dedup.mpr hmem)⟩
  · rintro ⟨hget, hnot⟩
    refine ⟨f.title, List.mem_filter.mpr
      ⟨?_, decide_eq_true fun hd => hnot (List.mem_dedup.mp hd)⟩, hget⟩
    exact List.mem_dedup.mpr (mem_map_title_of_dictGet hget)

theorem mem_compare_updated_iff (snap : ProgramSnapshot) (new_films : List Film)
    (f : Film) :
    f ∈ (compare_snapshots (some snap) new_films).2.2 ↔
      ∃ o, dictGet snap.films f.title = some o ∧
        dictGet new_films f.title = some f ∧ film_changed o f = true := by
  show f ∈ List.filterMap _ _ ↔ _
  rw [List.mem_filterMap]
  constructor
  · rintro ⟨t, ht, hres⟩
    rcases ho : dictGet snap.films t with _ | o <;> rw [ho] at hres
    · simp at hres
    rcases hn : dictGet new_films t with _ | n <;> rw [hn] at hres
    · simp at hres
    simp only [Option.ite_none_right_eq_some, Option.some.injEq] at hres
    obtain ⟨hch, hfn⟩ := hres
    subst hfn
    have htitle := dictGet_title hn
    subst htitle
    exact ⟨o, ho, hn, hch⟩
  · rintro ⟨o, ho, hn, hch⟩
    refine ⟨f.title, List.mem_filter.mpr ⟨?_, decide_eq_true ?_⟩, ?_⟩
    · exact List.mem_dedup.mpr (mem_map_title_of_dictGet ho)
    · exact List.mem_dedup.mpr (mem_map_title_of_dictGet hn)
    · rw [ho, hn]
      simp [hch]

theorem showtimeSetEq_iff_toFinset (a b : List Showtime) :
    showtimeSetEq a b = true ↔
      (a.map showtimeKey).toFinset = (b.map showtimeKey).toFinset := by
  unfold showtimeSetEq
  rw [Bool.and_eq_true, List.all_eq_true, List.all_eq_true, Finset.ext_iff]
  constructor
  · rintro ⟨h1, h2⟩ k
    simp only [List.mem_toFinset]
    exact ⟨fun hk => of_decide_eq_true (h1 k hk),
      fun hk => of_decide_eq_true (h2 k hk)⟩
  · intro h
    refine ⟨fun k hk => decide_eq_true ?_, fun k hk => decide_eq_true ?_⟩
    · have := (h k).mp (List.mem_toFinset.mpr hk)
      exact List.mem_toFinset.mp this
    · have := (h k).mpr (List.mem_toFinset.mpr hk)
      exact List.mem_toFinset.mp this

theorem film_changed_iff (o n : Film) :
    film_changed o n = true ↔
      (o.description ≠ n.description ∨
        (o.showtimes.map showtimeKey).toFinset ≠
          (n.showtimes.map showtimeKey).toFinset) := by
  unfold film_changed
  rw [Bool.or_eq_true, decide_eq_true_iff, Bool.not_eq_true']
  constructor
  · rintro (h | h)
    · exact Or.inl h
    · refine Or.inr fun heq => ?_
      have htrue := (showtimeSetEq_iff_toFinset _ _).mpr heq
      rw [htrue] at h
      simp at h
  · rintro (h | h)
    · exact Or.inl h
    · refine Or.inr ?_
      rcases hb : showtimeSetEq o.showtimes n.showtimes with _ | _
      · rfl
      · exact absurd ((showtimeSetEq_iff_toFinset _ _).mp hb) h

/-- **C3**: diffing with an absent previous snapshot returns the triple
`(current listing, [], [])`: every film is new, nothing removed or updated. -/
theorem compare_absent_previous (new_films : List Film) :
    compare_snapshots none new_films = (new_films, [], []) := rfl

/-- **C1**: for a title present in both listings (with previous version `o`
and current version `n` under the engine's last-write-wins title map), the
current record appears in `updatedFilms` iff the description differs or the
set of `(date, time, room, language)` tuples differs; in particular a change
confined to genres, fsk rating, duration, poster url or film id (which leaves
description and showtime set intact) never puts the film in `updatedFilms`. -/
theorem mem_updated_iff_description_or_showtimes (snap : ProgramSnapshot)
    (new_films : List Film) (t : String) (o n : Film)
    (ho : dictGet snap.films t = some o) (hn : dictGet new_films t = some n) :
    n ∈ (compare_snapshots (some snap) new_films).2.2 ↔
      (o.description ≠ n.description ∨
        (o.showtimes.map showtimeKey).toFinset ≠
          (n.showtimes.map showtimeKey).toFinset) := by
  have hnt : n.title = t := dictGet_title hn
  rw [mem_compare_updated_iff, ← film_changed_iff]
  constructor
  · rintro ⟨o', ho', _, hch⟩
    rw [hnt, ho] at ho'
    obtain rfl : o = o' := Option.some.inj ho'
    exact hch
  · intro h
    exact ⟨o, by rw [hnt]; exact ho, by rw [hnt]; exact hn, h⟩

/-- Witness for C1 at a concrete input: "X" occurs in both snapshots with a
changed description, so the current version lands in `updatedFilms`. -/
theorem mem_updated_iff_description_or_showtimes_witness :
    filmXnew ∈ (compare_snapshots (some snapX) [filmXnew]).2.2 ↔
      (filmXold.description ≠ filmXnew.description ∨
        (filmXold.showtimes.map showtimeKey).toFinset ≠
          (filmXnew.showtimes.map showtimeKey).toFinset) :=
  mem_updated_iff_description_or_showtimes snapX [filmXnew] "X" filmXold
    filmXnew (by decide) (by decide)

/-- **C2**: with a present previous snapshot, `newFilms` holds exactly the
current-version records whose title is in the current listing but not the
previous one, and `removedFilms` holds exactly the previous-version records
whose title is in the previous snapshot but not the current listing (stated
via membership, so up to output order). -/
theorem compare_new_removed_spec (snap : ProgramSnapshot)
    (new_films : List Film) (f : Film) :
    (f ∈ (compare_snapshots (some snap) new_films).1 ↔
      dictGet new_films f.title = some f ∧
        f.title ∉ snap.films.map Film.title) ∧
    (f ∈ (compare_snapshots (some snap) new_films).2.1 ↔
      dictGet snap.films f.title = some f ∧
        f.title ∉ new_films.map Film.title) :=
  ⟨mem_compare_new_iff snap new_films f, mem_compare_removed_iff snap new_films f⟩

/-- **C10**: the three diff outputs have pairwise disjoint title sets, every
`newFilms`/`updatedFilms` title occurs in the current listing, and every
`removedFilms` title occurs in the previous snapshot. -/
theorem compare_outputs_partition (snap : ProgramSnapshot)
    (new_films : List Film) :
    (∀ f ∈ (compare_snapshots (some snap) new_films).1,
      ∀ g ∈ (compare_snapshots (some snap) new_films).2.1,
        f.title ≠ g.title) ∧
    (∀ f ∈ (compare_snapshots (some snap) new_films).1,
      ∀ g ∈ (compare_snapshots (some snap) new_films).2.2,
        f.title ≠ g.title) ∧
    (∀ f ∈ (compare_snapshots (some snap) new_films).2.1,
      ∀ g ∈ (compare_snapshots (some snap) new_films).2.2,
        f.title ≠ g.title) ∧
    (∀ f ∈ (compare_snapshots (some snap) new_films).1,
      f.title ∈ new_films.map Film.title) ∧
    (∀ f ∈ (compare_snapshots (some snap) new_films).2.2,
      f.title ∈ new_films.map Film.title) ∧
    (∀ f ∈ (compare_snapshots (some snap) new_films).2.1,
      f.title ∈ snap.films.map Film.title) := by
  refine ⟨?_, ?_, ?_, ?_, ?_, ?_⟩
  · intro f hf g hg heq
    obtain ⟨_, hfnot⟩ := (mem_compare_new_iff snap new_films f).mp hf
    obtain ⟨hgget, _⟩ := (mem_compare_removed_iff snap new_films g).mp hg
    exact hfnot (by rw [heq]; exact mem_map_title_of_dictGet hgget)
  · intro f hf g hg heq
    obtain ⟨_, hfnot⟩ := (mem_compare_new_iff snap new_films f).mp hf
    obtain ⟨o, hoget, _, _⟩ := (mem_compare_updated_iff snap new_films g).mp hg
    exact hfnot (by rw [heq]; exact mem_map_title_of_dictGet hoget)
  · intro f hf g hg heq
    obtain ⟨_, hfnot⟩ := (mem_compare_removed_iff snap new_films f).mp hf
    obtain ⟨o, _, hgget, _⟩ := (mem_compare_updated_iff snap new_films g).mp hg
    exact hfnot (by rw [heq]; exact mem_map_title_of_dictGet hgget)
  · intro f hf
    exact mem_map_title_of_dictGet
      ((mem_compare_new_iff snap new_films f).mp hf).1
  · intro f hf
    obtain ⟨o, _, hfget, _⟩ := (mem_compare_updated_iff snap new_films f).mp hf
    exact mem_map_title_of_dictGet hfget
  · intro f hf
    exact mem_map_title_of_dictGet
      ((mem_compare_removed_iff snap new_films f).mp hf).1

theorem find?_setRecord (s : SubState) (c : Int) (r : SubRecord) :
    (setRecord s c r).find? (fun p => decide (p.1 = c)) = some (c, r) := by
  induction s with
  | nil => simp [setRecord]
  | cons q tl ih =>
    by_cases hq : q.1 = c
    · have hall : (q :: tl).any (fun p => decide (p.1 = c)) = true := by
        simp [hq]
      unfold setRecord
      rw [if_pos hall, List.map_cons, if_pos hq]
      simp [List.find?]
    · by_cases htl : tl.any (fun p => decide (p.1 = c)) = true
      · have hall : (q :: tl).any (fun p => decide (p.1 = c)) = true := by
          simp [htl]
        unfold setRecord
        rw [if_pos hall, List.map_cons, if_neg hq]
        rw [List.find?_cons_of_neg _ (by simp [hq])]
        have htail := ih
        unfold setRecord at htail
        rw [if_pos htl] at htail
        exact htail
      · have hall : ¬ (q :: tl).any (fun p => decide (p.1 = c)) = true := by
          simp only [List.any_cons, Bool.or_eq_true, decide_eq_true_eq]
          rintro (h | h)
          · exact hq h
          · exact htl h
        unfold setRecord
        rw [if_neg hall, List.cons_append]
        rw [List.find?_cons_of_neg _ (by simp [hq])]
        have htail := ih
        unfold setRecord at htail
        rw [if_neg (by simp [htl] : ¬ tl.any (fun p => decide (p.1 = c)) = true)]
          at htail
        exact htail

theorem subLookup_setRecord (s : SubState) (c : Int) (r : SubRecord) :
    subLookup (setRecord s c r) c = some r := by
  unfold subLookup
  rw [find?_setRecord]
  rfl

theorem mem_setRecord {s : SubState} {c : Int} {r : SubRecord}
    {p : Int × SubRecord} (h : p ∈ setRecord s c r) :
    (p ∈ s ∧ p.1 ≠ c) ∨ p = (c, r) := by
  by_cases hany : s.any (fun q => decide (q.1 = c)) = true
  · unfold setRecord at h
    rw [if_pos hany] at h
    obtain ⟨q, hq, hfq⟩ := List.mem_map.mp h
    by_cases hqc : q.1 = c
    · right
      rw [if_pos hqc] at hfq
      exact hfq.symm
    · left
      rw [if_neg hqc] at hfq
      exact ⟨hfq ▸ hq, hfq ▸ hqc⟩
  · unfold setRecord at h
    rw [if_neg hany] at h
    rcases List.mem_append.mp h with h1 | h1
    · left
      refine ⟨h1, ?_⟩
      rw [Bool.not_eq_true, List.any_eq_false] at hany
      have := hany p h1
      simpa using this
    · right
      simpa using h1

theorem mem_delRecord {s : SubState} {c : Int} {p : Int × SubRecord}
    (h : p ∈ delRecord s c) : p ∈ s :=
  (List.mem_filter.mp h).1

theorem subLookup_delRecord (s : SubState) (c : Int) :
    subLookup (delRecord s c) c = none := by
  unfold subLookup delRecord
  have hfind : (s.filter (fun p => decide (p.1 ≠ c))).find?
      (fun p => decide (p.1 = c)) = none := by
    rw [List.find?_eq_none]
    intro p hp
    have h2 := (List.mem_filter.mp hp).2
    simp only [decide_eq_true_eq] at h2 ⊢
    exact h2
  rw [hfind]
  rfl

theorem subLookup_mem {s : SubState} {c : Int} {r : SubRecord}
    (h : subLookup s c = some r) : ∃ p, p ∈ s ∧ p.1 = c ∧ p.2 = r := by
  unfold subLookup at h
  rcases hf : s.find? (fun p => decide (p.1 = c)) with _ | p
  · rw [hf] at h
    simp at h
  · rw [hf] at h
    simp only [Option.map_some', Option.some.injEq] at h
    refine ⟨p, List.mem_of_find?_eq_some hf, ?_, h⟩
    have hp := List.find?_some hf
    exact of_decide_eq_true hp

theorem add_subscription_eq_of_none {s : SubState} {c : Int} {src : String}
    (hl : subLookup s c = none) :
    add_subscription s c src =
      (true, setRecord (setRecord s c ⟨[], "en"⟩) c ⟨[src], "en"⟩) := by
  simp only [add_subscription, hl, Option.isNone_none, if_true,
    subLookup_setRecord]
  simp

theorem add_subscription_eq_of_mem {s : SubState} {c : Int} {src : String}
    {r : SubRecord} (hl : subLookup s c = some r) (hm : src ∈ r.sources) :
    add_subscription s c src = (false, s) := by
  simp only [add_subscription, hl]
  simp [hl, hm]

theorem add_subscription_eq_of_not_mem {s : SubState} {c : Int} {src : String}
    {r : SubRecord} (hl : subLookup s c = some r) (hm : src ∉ r.sources) :
    add_subscription s c src =
      (true, setRecord s c ⟨r.sources ++ [src], r.language⟩) := by
  simp only [add_subscription, hl]
  simp [hl, hm]

theorem remove_subscription_eq_of_none {s : SubState} {c : Int} {src : String}
    (hl : subLookup s c = none) :
    remove_subscription s c src = (false, s) := by
  simp only [remove_subscription, hl]

theorem remove_subscription_eq_of_not_mem {s : SubState} {c : Int}
    {src : String} {r : SubRecord} (hl : subLookup s c = some r)
    (hm : src ∉ r.sources) : remove_subscription s c src = (false, s) := by
  simp only [remove_subscription, hl]
  simp [hm]

theorem remove_subscription_eq_of_mem_empty {s : SubState} {c : Int}
    {src : String} {r : SubRecord} (hl : subLookup s c = some r)
    (hm : src ∈ r.sources) (he : (r.sources.erase src).isEmpty = true) :
    remove_subscription s c src = (true, delRecord s c) := by
  simp only [remove_subscription, hl]
  simp [hm, he]

theorem remove_subscription_eq_of_mem_nonempty {s : SubState} {c : Int}
    {src : String} {r : SubRecord} (hl : subLookup s c = some r)
    (hm : src ∈ r.sources) (he : (r.sources.erase src).isEmpty = false) :
    remove_subscription s c src =
      (true, setRecord s c ⟨r.sources.erase src, r.language⟩) := by
  simp only [remove_subscription, hl]
  simp [hm, he]

theorem noEmpty_setRecord {s : SubState} {c : Int} {r : SubRecord}
    (hs : ∀ p, p ∈ s → p.1 ≠ c → p.2.sources ≠ []) (hr : r.sources ≠ []) :
    noEmptyRecords (setRecord s c r) := by
  intro p hp
  rcases mem_setRecord hp with ⟨h1, h2⟩ | h1
  · exact hs p h1 h2
  · rw [h1]
    exact hr

theorem noEmpty_delRecord {s : SubState} {c : Int}
    (hs : noEmptyRecords s) : noEmptyRecords (delRecord s c) :=
  fun p hp => hs p (mem_delRecord hp)

theorem noEmpty_add_subscription (s : SubState) (c : Int) (src : String)
    (hs : noEmptyRecords s) : noEmptyRecords (add_subscription s c src).2 := by
  rcases hl : subLookup s c with _ | r
  · rw [add_subscription_eq_of_none hl]
    apply noEmpty_setRecord
    · intro p hp hpc
      rcases mem_setRecord hp with ⟨h1, _⟩ | h1
      · exact hs p h1
      · exact absurd (congrArg Prod.fst h1) hpc
    · simp
  · by_cases hm : src ∈ r.sources
    · rw [add_subscription_eq_of_mem hl hm]
      exact hs
    · rw [add_subscription_eq_of_not_mem hl hm]
      apply noEmpty_setRecord
      · intro p hp _
        exact hs p hp
      · simp

theorem noEmpty_remove_subscription (s : SubState) (c : Int) (src : String)
    (hs : noEmptyRecords s) :
    noEmptyRecords (remove_subscription s c src).2 := by
  rcases hl : subLookup s c with _ | r
  · rw [remove_subscription_eq_of_none hl]
    exact hs
  · by_cases hm : src ∈ r.sources
    · rcases he : (r.sources.erase src).isEmpty with _ | _
      · rw [remove_subscription_eq_of_mem_nonempty hl hm he]
        apply noEmpty_setRecord
        · intro p hp _
          exact hs p hp
        · intro hnil
          have hnil2 : r.sources.erase src = [] := hnil
          rw [hnil2] at he
          simp at he
      · rw [remove_subscription_eq_of_mem_empty hl hm he]
        exact noEmpty_delRecord hs
    · rw [remove_subscription_eq_of_not_mem hl hm]
      exact hs

theorem noEmpty_remove_subscriber (s : SubState) (c : Int)
    (hs : noEmptyRecords s) : noEmptyRecords (remove_subscriber s c).2 := by
  unfold remove_subscriber
  by_cases h : (subLookup s c).isNone = true
  · rw [if_pos h]
    exact hs
  · rw [if_neg h]
    exact noEmpty_delRecord hs

theorem noEmpty_applyOp (s : SubState) (op : SubOp)
    (hs : noEmptyRecords s) : noEmptyRecords (applyOp s op) := by
  cases op with
  | addSub c src => exact noEmpty_add_subscription s c src hs
  | removeSub c src => exact noEmpty_remove_subscription s c src hs
  | addLegacy c => exact noEmpty_add_subscription s c "meisengeige" hs
  | removeLegacy c => exact noEmpty_remove_subscriber s c hs

theorem noEmpty_applyOps (s : SubState) (ops : List SubOp)
    (hs : noEmptyRecords s) : noEmptyRecords (applyOps s ops) := by
  induction ops generalizing s with
  | nil => exact hs
  | cons op tl ih => exact ih (applyOp s op) (noEmpty_applyOp s op hs)

/-- **C4**: starting from a state with no empty-source record, any finite
sequence of add/remove (and legacy) operations preserves the invariant, and
for every chat id either no record exists (and then `get_user_sources`
returns `[]` and `is_subscribed` returns `false`) or its source list is
non-empty — so a record with an empty source set never persists. -/
theorem subscription_never_empty (s : SubState) (ops : List SubOp)
    (h : noEmptyRecords s) :
    noEmptyRecords (applyOps s ops) ∧
    ∀ c : Int,
      (subLookup (applyOps s ops) c = none ∧
        get_user_sources (applyOps s ops) c = [] ∧
        is_subscribed (applyOps s ops) c none = false) ∨
      get_user_sources (applyOps s ops) c ≠ [] := by
  have hinv := noEmpty_applyOps s ops h
  refine ⟨hinv, fun c => ?_⟩
  rcases hl : subLookup (applyOps s ops) c with _ | r
  · left
    refine ⟨hl ▸ rfl, ?_, ?_⟩
    · unfold get_user_sources
      rw [hl]
    · unfold is_subscribed
      rw [hl]
  · right
    obtain ⟨p, hp, _, hpr⟩ := subLookup_mem hl
    have hne := hinv p hp
    rw [hpr] at hne
    unfold get_user_sources
    rw [hl]
    exact hne

/-- Witness for C4: subscribing chat 1 to "meisengeige" and then removing
that subscription leaves no record for chat 1 behind. -/
theorem subscription_never_empty_witness :
    (subLookup (applyOps [] [SubOp.addSub 1 "meisengeige",
        SubOp.removeSub 1 "meisengeige"]) 1 = none ∧
      get_user_sources (applyOps [] [SubOp.addSub 1 "meisengeige",
        SubOp.removeSub 1 "meisengeige"]) 1 = [] ∧
      is_subscribed (applyOps [] [SubOp.addSub 1 "meisengeige",
        SubOp.removeSub 1 "meisengeige"]) 1 none = false) ∨
    get_user_sources (applyOps [] [SubOp.addSub 1 "meisengeige",
      SubOp.removeSub 1 "meisengeige"]) 1 ≠ [] :=
  (subscription_never_empty [] [SubOp.addSub 1 "meisengeige",
    SubOp.removeSub 1 "meisengeige"]
    (fun p hp => absurd hp (List.not_mem_nil p))).2 1

/-- **C5**: from a state where chat `c` is not subscribed to source `src`,
`add_subscription` returns `true` and a second identical call returns
`false` without changing the state; `remove_subscription` on the
unsubscribed pair returns `false` and leaves the state unchanged. -/
theorem add_twice_remove_unsubscribed (s : SubState) (c : Int) (src : String)
    (h : is_subscribed s c (some src) = false) :
    (add_subscription s c src).1 = true ∧
    (add_subscription (add_subscription s c src).2 c src).1 = false ∧
    (add_subscription (add_subscription s c src).2 c src).2 =
      (add_subscription s c src).2 ∧
    (remove_subscription s c src).1 = false ∧
    (remove_subscription s c src).2 = s := by
  rcases hl : subLookup s c with _ | r
  · have h1 : add_subscription s c src =
        (true, setRecord (setRecord s c ⟨[], "en"⟩) c ⟨[src], "en"⟩) :=
      add_subscription_eq_of_none hl
    have h2 : subLookup (add_subscription s c src).2 c =
        some ⟨[src], "en"⟩ := by
      rw [h1]
      exact subLookup_setRecord _ c _
    have hmem : src ∈ (⟨[src], "en"⟩ : SubRecord).sources := by simp
    have h3 := add_subscription_eq_of_mem h2 hmem
    refine ⟨by rw [h1], by rw [h3], by rw [h3], ?_, ?_⟩
    · rw [remove_subscription_eq_of_none hl]
    · rw [remove_subscription_eq_of_none hl]
  · have hmem : src ∉ r.sources := by
      intro hx
      unfold is_subscribed at h
      rw [hl] at h
      simp [hx] at h
    have h1 := add_subscription_eq_of_not_mem hl hmem
    have h2 : subLookup (add_subscription s c src).2 c =
        some ⟨r.sources ++ [src], r.language⟩ := by
      rw [h1]
      exact subLookup_setRecord _ c _
    have hmem2 : src ∈ (⟨r.sources ++ [src], r.language⟩ : SubRecord).sources := by
      simp
    have h3 := add_subscription_eq_of_mem h2 hmem2
    refine ⟨by rw [h1], by rw [h3], by rw [h3], ?_, ?_⟩
    · rw [remove_subscription_eq_of_not_mem hl hmem]
    · rw [remove_subscription_eq_of_not_mem hl hmem]

/-- Witness for C5 at a concrete input: empty store, chat 1, source
"meisengeige". -/
theorem add_twice_remove_unsubscribed_witness :
    (add_subscription [] 1 "meisengeige").1 = true ∧
    (add_subscription (add_subscription [] 1 "meisengeige").2 1
      "meisengeige").1 = false ∧
    (add_subscription (add_subscription [] 1 "meisengeige").2 1
      "meisengeige").2 = (add_subscription [] 1 "meisengeige").2 ∧
    (remove_subscription [] 1 "meisengeige").1 = false ∧
    (remove_subscription [] 1 "meisengeige").2 = [] :=
  add_twice_remove_unsubscribed [] 1 "meisengeige" rfl

theorem find?_map_set_ne (s : SubState) {c c' : Int} (r : SubRecord)
    (h : c ≠ c') :
    List.find? (fun p => decide (p.1 = c))
        (s.map (fun p => if p.1 = c' then (c', r) else p)) =
      List.find? (fun p => decide (p.1 = c)) s := by
  induction s with
  | nil => rfl
  | cons q tl ih =>
    rw [List.map_cons]
    by_cases hq : q.1 = c'
    · rw [if_pos hq, List.find?_cons, List.find?_cons]
      have h1 : decide ((c', r).1 = c) = false := by
        simp only [decide_eq_false_iff_not]
        exact fun hh => h hh.symm
      have h2 : decide (q.1 = c) = false := by
        simp only [decide_eq_false_iff_not, hq]
        exact fun hh => h hh.symm
      rw [h1, h2]
      exact ih
    · rw [if_neg hq, List.find?_cons, List.find?_cons]
      cases hpq : decide (q.1 = c) with
      | true => rfl
      | false => exact ih

theorem subLookup_setRecord_ne (s : SubState) {c c' : Int} (r : SubRecord)
    (h : c ≠ c') : subLookup (setRecord s c' r) c = subLookup s c := by
  unfold setRecord
  by_cases hany : s.any (fun p => decide (p.1 = c')) = true
  · rw [if_pos hany]
    unfold subLookup
    rw [find?_map_set_ne s r h]
  · rw [if_neg hany]
    unfold subLookup
    rw [List.find?_append]
    have hsingle : List.find? (fun p => decide (p.1 = c)) [(c', r)] = none := by
      rw [List.find?_eq_none]
      intro p hp
      simp only [List.mem_singleton] at hp
      subst hp
      simp only [decide_eq_true_eq]
      exact fun hh => h hh.symm
    rw [hsingle, Option.or_none]

theorem subLookup_foldl_set (ids : List Int) (m : SubState) (c : Int)
    (r : SubRecord) :
    subLookup (ids.foldl (fun acc i => setRecord acc i r) m) c =
      if c ∈ ids then some r else subLookup m c := by
  induction ids generalizing m with
  | nil => simp
  | cons i tl ih =>
    rw [List.foldl_cons, ih]
    by_cases hc : c ∈ tl
    · simp [hc]
    · by_cases hci : c = i
      · subst hci
        simp [hc, subLookup_setRecord]
      · simp [hc, hci, subLookup_setRecord_ne _ _ hci]

/-- **C6**: migrating the old flat id list yields a store in which exactly
the listed ids are subscribed, each with the single legacy default source
"meisengeige" (no id is dropped, nothing else appears); new-format data
passes through unchanged; and re-running the migration on already-migrated
data is the identity. -/
theorem migrate_old_format_spec (ids : List Int) (entries : SubState)
    (p : SubPayload) :
    (∀ c : Int,
      subLookup (migrate_old_format (.oldFormat ids)) c =
        if c ∈ ids then some ⟨["meisengeige"], "en"⟩ else none) ∧
    migrate_old_format (.newFormat entries) = entries ∧
    migrate_old_format (.newFormat (migrate_old_format p)) =
      migrate_old_format p := by
  refine ⟨fun c => ?_, rfl, rfl⟩
  unfold migrate_old_format
  rw [subLookup_foldl_set]
  rfl

theorem okBind {α β : Type} (a : α) (f : α → Except PyErr β) :
    (Except.ok a : Except PyErr α) >>= f = f a := rfl

theorem showtime_roundtrip (st : Showtime) :
    showtimeFromDict (showtimeToDict st) = .ok st := by
  obtain ⟨date, time, room, language⟩ := st
  cases language with
  | none => rfl
  | some l => rfl

theorem decode_showtimes_roundtrip (sts : List Showtime) :
    decodeShowtimes (sts.map showtimeToDict) = .ok sts := by
  induction sts with
  | nil => rfl
  | cons st tl ih =>
    simp only [List.map_cons, decodeShowtimes, showtime_roundtrip, okBind, ih]

theorem decode_strings_roundtrip (xs : List String) :
    decodeStrings (xs.map JValue.str) = .ok xs := by
  induction xs with
  | nil => rfl
  | cons x tl ih =>
    simp only [List.map_cons, decodeStrings, okBind, ih]

theorem from_dict_to_dict_eq (title : String) (genres : List String)
    (fsk : Option String) (dur : Option Int) (desc : Option String)
    (poster : Option String) (sts : List Showtime) (fid : Option String) :
    Film.from_dict (Film.to_dict
        ⟨title, genres, fsk, dur, desc, poster, sts, fid⟩) =
      (decodeShowtimes (sts.map showtimeToDict)).bind (fun showtimes =>
        (decodeStrings (genres.map JValue.str)).bind (fun gs =>
          .ok ⟨title, gs, fsk, dur, desc, poster, showtimes, fid⟩)) := by
  cases fsk <;> cases dur <;> cases desc <;> cases poster <;> cases fid <;> rfl

theorem film_roundtrip (f : Film) :
    Film.from_dict (Film.to_dict f) = .ok f := by
  obtain ⟨title, genres, fsk, dur, desc, poster, sts, fid⟩ := f
  rw [from_dict_to_dict_eq, decode_showtimes_roundtrip,
    decode_strings_roundtrip]
  rfl

theorem decode_films_roundtrip (films : List Film) :
    decodeFilms (films.map Film.to_dict) = .ok films := by
  induction films with
  | nil => rfl
  | cons f tl ih =>
    simp only [List.map_cons, decodeFilms, film_roundtrip, okBind, ih]

/-- **C7**: saving a snapshot and loading it back returns a snapshot whose
films are structurally equal to the saved input (every field, including the
showtime list, survives the serialize/deserialize round trip). -/
theorem save_load_roundtrip (timestamp : String) (films : List Film) :
    load_snapshot (save_snapshot timestamp films) =
      .ok (some { timestamp := timestamp, films := films }) := by
  simp only [save_snapshot, load_snapshot]
  have hfd : ProgramSnapshot.from_dict (ProgramSnapshot.to_dict
      { timestamp := timestamp, films := films }) =
      .ok { timestamp := timestamp, films := films } := by
    have heq : ProgramSnapshot.from_dict (ProgramSnapshot.to_dict
        { timestamp := timestamp, films := films }) =
        (decodeFilms (films.map Film.to_dict)).bind (fun fs =>
          .ok { timestamp := timestamp, films := fs }) := rfl
    rw [heq, decode_films_roundtrip]
    rfl
  rw [hfd]

/-- Counterexample to C8 as stated: a syntactically valid JSON file whose
`films` entry is a number (not a list) makes `load_snapshot` raise an
uncaught TypeError (the `except` clause catches only `json.JSONDecodeError`
and `KeyError`), instead of returning the absent value. -/
theorem load_snapshot_uncaught_error :
    load_snapshot (.json (.obj [("timestamp", JValue.str "t"),
      ("films", JValue.num 0)])) = .error .typeError := rfl

/-- **C8** (amended): loading returns the absent value when the file is
missing, when its content is not valid JSON, or when decoding fails with a
KeyError (e.g. a missing required key); wrong-typed values, however,
propagate as uncaught exceptions. -/
theorem load_snapshot_caught_cases (v : JValue)
    (h : ProgramSnapshot.from_dict v = .error .keyError) :
    load_snapshot .missing = .ok none ∧
    load_snapshot .invalidJson = .ok none ∧
    load_snapshot (.json v) = .ok none := by
  refine ⟨rfl, rfl, ?_⟩
  simp only [load_snapshot, h]

/-- Witness for C8's amended claim: an empty JSON object is missing the
required `timestamp` key, so decoding fails with KeyError and loading
returns the absent value. -/
theorem load_snapshot_caught_cases_witness :
    load_snapshot .missing = .ok none ∧
    load_snapshot .invalidJson = .ok none ∧
    load_snapshot (.json (.obj [])) = .ok none :=
  load_snapshot_caught_cases (.obj []) rfl

theorem notifyAll_go (send : Int → SendResult) (subs : List Int)
    (a b : Nat) (l : List Int) :
    subs.foldl (fun acc chat_id =>
      match send chat_id with
      | .delivered => (acc.1 + 1, acc.2.1, acc.2.2 ++ [chat_id])
      | .telegramError => (acc.1, acc.2.1 + 1, acc.2.2 ++ [chat_id]))
      (a, b, l) =
      (a + (subs.filter (fun c => decide (send c = .delivered))).length,
       b + (subs.filter (fun c => decide (send c = .telegramError))).length,
       l ++ subs) := by
  induction subs generalizing a b l with
  | nil => simp
  | cons c tl ih =>
    rw [List.foldl_cons]
    rcases hc : send c with _ | _
    · rw [ih]
      simp [List.filter_cons, hc, Prod.ext_iff]
      omega
    · rw [ih]
      simp [List.filter_cons, hc, Prod.ext_iff]
      omega

theorem notifyAll_spec (send : Int → SendResult) (subs : List Int) :
    notifyAll send subs =
      ((subs.filter (fun c => decide (send c = .delivered))).length,
       (subs.filter (fun c => decide (send c = .telegramError))).length,
       subs) := by
  unfold notifyAll
  rw [notifyAll_go]
  simp

/-- **C9**: with a non-empty diff, the notification loop attempts delivery
to every subscriber in order regardless of per-recipient failures: the
attempted list is exactly the subscriber list, `success_count` counts the
delivered recipients, `error_count` counts the failed ones, and the function
returns counts instead of propagating a TelegramError. -/
theorem notification_failures_isolated (send : Int → SendResult)
    (subscribers : List Int)
    (new_films removed_films updated_films : List Film)
    (h : (new_films.isEmpty && removed_films.isEmpty &&
      updated_films.isEmpty) = false) :
    send_update_notification send subscribers new_films removed_films
        updated_films =
      ((subscribers.filter (fun c => decide (send c = .delivered))).length,
       (subscribers.filter (fun c => decide (send c = .telegramError))).length,
       subscribers) := by
  unfold send_update_notification
  rw [if_neg (by simp [h])]
  by_cases hs : subscribers.isEmpty = true
  · rw [if_pos hs]
    rw [List.isEmpty_iff] at hs
    subst hs
    rfl
  · rw [if_neg hs]
    exact notifyAll_spec send subscribers

/-- Witness for C9 at a concrete input: three subscribers, delivery to chat
2 fails, one new film in the diff. -/
theorem notification_failures_isolated_witness :
    send_update_notification sendSample [1, 2, 3] [filmXnew] [] [] =
      (([1, 2, 3].filter
        (fun c => decide (sendSample c = SendResult.delivered))).length,
       ([1, 2, 3].filter
        (fun c => decide (sendSample c = SendResult.telegramError))).length,
       [1, 2, 3]) :=
  notification_failures_isolated sendSample [1, 2, 3] [filmXnew] [] [] rfl

/-- Witness for C2 at a concrete input: "Y" is absent from the previous
snapshot, so its current record lands in `newFilms`. -/
theorem compare_new_removed_spec_witness :
    filmY ∈ (compare_snapshots (some snapX) [filmY]).1 :=
  (compare_new_removed_spec snapX [filmY] filmY).1.mpr ⟨rfl, by decide⟩

/-- Witness for C10 at a concrete input: the updated film "X" carries a
title occurring in the current listing. -/
theorem compare_outputs_partition_witness :
    filmXnew.title ∈ [filmXnew].map Film.title :=
  (compare_outputs_partition snapX [filmXnew]).2.2.2.2.1 filmXnew (by decide)

/-- Witness for C6 at a concrete input: migrating the flat list `[5]` gives
chat 5 the single legacy default source. -/
theorem migrate_old_format_spec_witness :
    subLookup (migrate_old_format (.oldFormat [5])) 5 =
      if (5 : Int) ∈ [(5 : Int)] then some ⟨["meisengeige"], "en"⟩ else none :=
  (migrate_old_format_spec [5] [] (SubPayload.oldFormat [5])).1 5

end KinoBot
